import Mathlib

/-
Verification of the answer-sheet parsing and grading core of `app.py`
(auto grading system).  The definitions below are a shallow embedding of the
Python functions `parse_mcq_from_lines`, `parse_match_from_lines`,
`grade_mcq`, `grade_tf`, `grade_match`, `grade_fill`, `grade_vocab`,
`grade_listening` and `analyze_writing_text`.

Conventions of the embedding:
* Python strings are Lean `String`s; most character work happens on `List Char`.
* Python dicts that map question numbers to answers are association lists
  `List (Int × String)`; lookup (`dict.get`) takes the first entry with the
  given key, and insertion (`d[q] = a`) replaces any existing entry, so the
  association list always behaves like a finite map.
* Teacher answer keys are decoded JSON objects: association lists
  `List (String × String)` (question number as string, as in the JSON files).
* Python `int(q)` is modelled by `pyInt?`, returning `none` where Python
  raises `ValueError`; graders therefore return `Except String _`, with the
  error branch corresponding to an uncaught Python exception.
* The regular expressions in the parsers are compiled by hand to
  deterministic scanners.  Each scanner is proved equivalent to the regex by
  the following reasoning, recorded here once: all character classes that
  appear consecutively in the patterns are disjoint at their boundary
  (digits vs separators, separators vs the final letter, whitespace vs the
  final letter), so greedy matching with backtracking coincides with
  maximal-munch matching; `\d{1,3}` inside an unanchored `findall` can only
  succeed at a position whose maximal digit run has length at most three,
  because a leftover digit can never be consumed by the following class.
* Unicode-only behaviour of `str.upper`, `str.lower`, `str.strip`, `\w` and
  of numeric literals with grouping underscores is not modelled; the inputs
  of this application (OCR answer lines, JSON answer keys) are ASCII.
-/

/-! ## Python character and string primitives -/

/-- Python whitespace (`\s`, `str.strip`, `str.split`): space, tab, newline,
carriage return, vertical tab, form feed. -/
def pyIsSpace (c : Char) : Bool :=
  c == ' ' || c == '\t' || c == '\n' || c == '\r' ||
  c == Char.ofNat 11 || c == Char.ofNat 12

/-- A character of the regex class `\w` (ASCII part): letters, digits, underscore. -/
def isWordChar (c : Char) : Bool :=
  c.isAlphanum || c == '_'

/-- Value of a run of decimal digits, most significant first. -/
def digitsVal (ds : List Char) : Nat :=
  ds.foldl (fun n c => n * 10 + (c.toNat - 48)) 0

/-- Strip Python whitespace from both ends of a character list (`str.strip`). -/
def pyStripList (cs : List Char) : List Char :=
  ((cs.dropWhile pyIsSpace).reverse.dropWhile pyIsSpace).reverse

/-- `str.strip()`. -/
def pyStrip (s : String) : String :=
  String.mk (pyStripList s.data)

/-- `str.upper()` (ASCII). -/
def pyUpper (s : String) : String :=
  String.mk (s.data.map Char.toUpper)

/-- `str.lower()` (ASCII). -/
def pyLower (s : String) : String :=
  String.mk (s.data.map Char.toLower)

/-- `str.upper()` applied to a one-character regex group, as in
`m.group(2).upper()`. -/
def pyUpper1 (c : Char) : String :=
  String.singleton c.toUpper

/-- Python `int(s)`: optional surrounding whitespace, optional sign, a
nonempty digit run.  Returns `none` where `int` raises `ValueError`. -/
def pyInt? (s : String) : Option Int :=
  let cs := pyStripList s.data
  match cs with
  | '-' :: rest =>
      if rest ≠ [] ∧ rest.all Char.isDigit then some (-(digitsVal rest : Int)) else none
  | '+' :: rest =>
      if rest ≠ [] ∧ rest.all Char.isDigit then some (digitsVal rest : Int) else none
  | _ =>
      if cs ≠ [] ∧ cs.all Char.isDigit then some (digitsVal cs : Int) else none

/-! ## Answer mappings (Python dicts keyed by question number) -/

/-- A student answer mapping: question number to answer value, as produced by
the parsers (`{question_number: answer}` dicts in the source). -/
abbrev AMap := List (Int × String)

/-- A decoded answer-key JSON object: question number **string** to answer. -/
abbrev KeyMap := List (String × String)

/-- Dict update `answers[q] = v`: replaces any previous binding of `q`. -/
def dinsert (m : AMap) (q : Int) (v : String) : AMap :=
  (q, v) :: m.filter (fun p => p.1 != q)

/-- The last scanner match for question `q` in a match list (the one whose
dict write survives when the matches are applied in sequence). -/
def lastHit (l : List (Int × Char)) (q : Int) : Option (Int × Char) :=
  l.reverse.find? (fun p => p.1 == q)

/-! ## MCQ parser (`parse_mcq_from_lines`, app.py lines 50-79) -/

/-- Letter class `[A-Da-d]` of the MCQ patterns. -/
def isMcqLetter (c : Char) : Bool :=
  c == 'A' || c == 'B' || c == 'C' || c == 'D' ||
  c == 'a' || c == 'b' || c == 'c' || c == 'd'

/-- Separator class `[\.\)\-\: ]` of the first MCQ pattern. -/
def isSepA (c : Char) : Bool :=
  c == '.' || c == ')' || c == '-' || c == ':' || c == ' '

/-- Separator class `[:\-\)\.]` of the findall MCQ pattern. -/
def isSepC (c : Char) : Bool :=
  c == ':' || c == '-' || c == ')' || c == '.'

/-- The zero-width `\b` after the captured letter: succeeds at end of input
or before a non-word character. -/
def boundaryOk : List Char → Bool
  | [] => true
  | c :: _ => !isWordChar c

/-- `re.match(r'^\s*(\d{1,3})[\.\)\-\: ]+\s*([A-Da-d])\b', line)`. -/
def matchA (cs : List Char) : Option (Int × Char) :=
  let r1 := cs.dropWhile pyIsSpace
  let ds := r1.takeWhile Char.isDigit
  if ds.length == 0 || ds.length > 3 then none
  else
    let r2 := r1.dropWhile Char.isDigit
    let seps := r2.takeWhile isSepA
    if seps.length == 0 then none
    else
      match (r2.dropWhile isSepA).dropWhile pyIsSpace with
      | [] => none
      | c :: r5 =>
          if isMcqLetter c && boundaryOk r5 then some ((digitsVal ds : Int), c) else none

/-- `re.match(r'^\s*(\d{1,3})\s+([A-Da-d])\b', line)`. -/
def matchB (cs : List Char) : Option (Int × Char) :=
  let r1 := cs.dropWhile pyIsSpace
  let ds := r1.takeWhile Char.isDigit
  if ds.length == 0 || ds.length > 3 then none
  else
    let r2 := r1.dropWhile Char.isDigit
    let ws := r2.takeWhile pyIsSpace
    if ws.length == 0 then none
    else
      match r2.dropWhile pyIsSpace with
      | [] => none
      | c :: r5 =>
          if isMcqLetter c && boundaryOk r5 then some ((digitsVal ds : Int), c) else none

/-- One attempt of the unanchored pattern `(\d{1,3})\s*[:\-\)\.]\s*([A-Da-d])`
at the current position; on success also returns the rest of the input after
the match. -/
def tryC (cs : List Char) : Option (Int × Char × List Char) :=
  let ds := cs.takeWhile Char.isDigit
  if ds.length == 0 || ds.length > 3 then none
  else
    match (cs.dropWhile Char.isDigit).dropWhile pyIsSpace with
    | [] => none
    | s :: r2 =>
        if isSepC s then
          match r2.dropWhile pyIsSpace with
          | [] => none
          | c :: r3 => if isMcqLetter c then some ((digitsVal ds : Int), c, r3) else none
        else none

/-- `re.findall` scan loop: leftmost match, then continue after its end;
on failure advance one character.  The fuel argument equals the input length
at the top-level call and never runs out, since every step consumes at least
one character. -/
def findallCGo : Nat → List Char → List (Int × Char)
  | 0, _ => []
  | _ + 1, [] => []
  | fuel + 1, c :: rest =>
      match tryC (c :: rest) with
      | some (q, a, r) => (q, a) :: findallCGo fuel r
      | none => findallCGo fuel rest

/-- `re.findall(r'(\d{1,3})\s*[:\-\)\.]\s*([A-Da-d])', line)`. -/
def findallC (cs : List Char) : List (Int × Char) :=
  findallCGo cs.length cs

/-- Body of the `for line in lines` loop of `parse_mcq_from_lines`: the first
anchored pattern, on failure the second, on failure every findall match
applied in sequence. -/
def processMcqLine (ans : AMap) (line : String) : AMap :=
  match matchA line.data with
  | some (q, a) => dinsert ans q (pyUpper1 a)
  | none =>
      match matchB line.data with
      | some (q, a) => dinsert ans q (pyUpper1 a)
      | none =>
          (findallC line.data).foldl (fun m p => dinsert m p.1 (pyUpper1 p.2)) ans

/-- `parse_mcq_from_lines(lines)`. -/
def parseMcqFromLines (lines : List String) : AMap :=
  lines.foldl processMcqLine []

/-! ## Matching parser (`parse_match_from_lines`, app.py lines 107-122) -/

/-- Separator class `[-\:\)]` of the strict matching pattern. -/
def isSepM (c : Char) : Bool :=
  c == '-' || c == ':' || c == ')'

/-- One attempt of the unanchored pattern `(\d{1,3})\s*[-\:\)]\s*([A-Za-z])`
at the current position. -/
def tryStrict (cs : List Char) : Option (Int × Char × List Char) :=
  let ds := cs.takeWhile Char.isDigit
  if ds.length == 0 || ds.length > 3 then none
  else
    match (cs.dropWhile Char.isDigit).dropWhile pyIsSpace with
    | [] => none
    | s :: r2 =>
        if isSepM s then
          match r2.dropWhile pyIsSpace with
          | [] => none
          | c :: r3 => if c.isAlpha then some ((digitsVal ds : Int), c, r3) else none
        else none

/-- Scan loop for the strict matching pattern. -/
def findallStrictGo : Nat → List Char → List (Int × Char)
  | 0, _ => []
  | _ + 1, [] => []
  | fuel + 1, c :: rest =>
      match tryStrict (c :: rest) with
      | some (q, a, r) => (q, a) :: findallStrictGo fuel r
      | none => findallStrictGo fuel rest

/-- `re.findall(r'(\d{1,3})\s*[-\:\)]\s*([A-Za-z])', line)`. -/
def findallStrict (cs : List Char) : List (Int × Char) :=
  findallStrictGo cs.length cs

/-- One attempt of the unanchored pattern `(\d{1,3})\s+([A-Za-z])\b`
at the current position. -/
def tryBare (cs : List Char) : Option (Int × Char × List Char) :=
  let ds := cs.takeWhile Char.isDigit
  if ds.length == 0 || ds.length > 3 then none
  else
    let r1 := cs.dropWhile Char.isDigit
    let ws := r1.takeWhile pyIsSpace
    if ws.length == 0 then none
    else
      match r1.dropWhile pyIsSpace with
      | [] => none
      | c :: r3 =>
          if c.isAlpha && boundaryOk r3 then some ((digitsVal ds : Int), c, r3) else none

/-- Scan loop for the bare matching pattern. -/
def findallBareGo : Nat → List Char → List (Int × Char)
  | 0, _ => []
  | _ + 1, [] => []
  | fuel + 1, c :: rest =>
      match tryBare (c :: rest) with
      | some (q, a, r) => (q, a) :: findallBareGo fuel r
      | none => findallBareGo fuel rest

/-- `re.findall(r'(\d{1,3})\s+([A-Za-z])\b', line)`. -/
def findallBare (cs : List Char) : List (Int × Char) :=
  findallBareGo cs.length cs

/-- Body of the `for line in lines` loop of `parse_match_from_lines`:
all strict matches applied first, then all bare matches, the latter guarded
by the source's `len(a)==1 and a.isalpha()` check (the length check is
vacuous here because the captured group is a single character). -/
def processMatchLine (ans : AMap) (line : String) : AMap :=
  let a1 := (findallStrict line.data).foldl (fun m p => dinsert m p.1 (pyUpper1 p.2)) ans
  (findallBare line.data).foldl
    (fun m p => if p.2.isAlpha then dinsert m p.1 (pyUpper1 p.2) else m) a1

/-- `parse_match_from_lines(lines)`. -/
def parseMatchFromLines (lines : List String) : AMap :=
  lines.foldl processMatchLine []

/-! ## String similarity (`Levenshtein.ratio`) -/

/-- Length of a longest common subsequence, with a fuel argument so that the
recursion is structural; `lcsLen` supplies fuel that never runs out. -/
def lcsLenF : Nat → List Char → List Char → Nat
  | 0, _, _ => 0
  | _ + 1, [], _ => 0
  | _ + 1, _ :: _, [] => 0
  | fuel + 1, a :: as, b :: bs =>
      if a == b then lcsLenF fuel as bs + 1
      else max (lcsLenF fuel (a :: as) bs) (lcsLenF fuel as (b :: bs))

/-- Length of a longest common subsequence of two character lists. -/
def lcsLen (a b : List Char) : Nat :=
  lcsLenF (a.length + b.length) a b

/-- `Levenshtein.ratio(a, b)`: `(lensum - dist) / lensum` where `dist` is the
edit distance with substitution cost 2, i.e. `lensum - 2 * lcs`; for two empty
strings the library returns `1.0`.  Exact rational arithmetic stands in for
the library's floating point; the values compared against the 0.75 threshold
are ratios of small integers, where the two agree. -/
def levSim (a b : String) : ℚ :=
  let lensum := a.length + b.length
  if lensum == 0 then 1
  else ((2 * lcsLen a.data b.data : Nat) : ℚ) / ((lensum : Nat) : ℚ)

/-- `f"{ratio:.2f}"`: two decimal places.  Rounds half up; CPython formats the
underlying binary float with round-half-even, which can differ only on exact
halves of hundredths. -/
def fmt2 (r : ℚ) : String :=
  let n : Int := Rat.floor (r * 100 + 1 / 2)
  let f : Nat := (n % 100).toNat
  toString (n / 100) ++ "." ++ (if f < 10 then "0" else "") ++ toString f

/-- Characters kept by the fill-in normalization `re.sub(r'[^A-Za-z0-9 ]','', ...)`. -/
def keepFillChar (c : Char) : Bool :=
  c.isAlphanum || c == ' '

/-- `re.sub(r'[^A-Za-z0-9 ]','', s.lower()).strip()` from `grade_fill`. -/
def pyNormalize (s : String) : String :=
  String.mk (pyStripList ((s.data.map Char.toLower).filter keepFillChar))

/-! ## Graders (`grade_mcq` / `grade_tf` / `grade_fill` / `grade_match`,
app.py lines 127-181) -/

/-- Result triple `(correct, total, details)` of a grader. -/
abbrev GradeRes := Nat × Nat × List String

/-- Well-formed answer key: every question-number string is accepted by
`int(...)`.  On any other key the Python graders raise `ValueError`. -/
def wfKey (key : KeyMap) : Prop :=
  ∀ p ∈ key, (pyInt? p.1).isSome = true

instance (key : KeyMap) : Decidable (wfKey key) :=
  List.decidableBAll _ key

/-- `grade_mcq` loop body, correctness test:
student answer present and equal to the key value after `.upper()` on both. -/
def mcqCorrectB (student : AMap) (qn : Int) (ans : String) : Bool :=
  match student.lookup qn with
  | some sa => pyUpper sa == pyUpper ans
  | none => false

/-- `grade_mcq` loop body, verdict string. -/
def mcqDetail (student : AMap) (q : String) (qn : Int) (ans : String) : String :=
  match student.lookup qn with
  | none => "Q" ++ q ++ ": No answer (expected " ++ ans ++ ")"
  | some sa =>
      if pyUpper sa == pyUpper ans then "Q" ++ q ++ ": ✔ " ++ sa
      else "Q" ++ q ++ ": ✘ " ++ sa ++ " (expected " ++ ans ++ ")"

/-- `grade_match` loop body, correctness test: `sa == right`, case sensitive;
a missing answer (`None`) never equals the key string. -/
def matchCorrectB (student : AMap) (qn : Int) (right : String) : Bool :=
  match student.lookup qn with
  | some sa => sa == right
  | none => false

/-- `grade_match` loop body, verdict string; `{sa if sa else 'None'}` renders
a missing or empty answer as the literal text `None`. -/
def matchDetail (student : AMap) (left : String) (qn : Int) (right : String) : String :=
  match student.lookup qn with
  | some sa =>
      if sa == right then left ++ "-" ++ sa ++ ": ✔"
      else left ++ "-" ++ (if sa == "" then "None" else sa) ++ ": ✘ expected " ++ right
  | none => left ++ "-None: ✘ expected " ++ right

/-- `grade_fill` loop body, correctness test: answer present and nonempty
(`if not sa`), key nonempty after normalization, similarity at or above the
threshold. -/
def fillCorrectB (student : AMap) (thr : ℚ) (qn : Int) (ans : String) : Bool :=
  match student.lookup qn with
  | none => false
  | some sa =>
      if sa == "" then false
      else
        let ansN := pyNormalize ans
        if ansN == "" then false
        else decide (thr ≤ levSim (pyNormalize sa) ansN)

/-- `grade_fill` loop body, verdict string. -/
def fillDetail (student : AMap) (thr : ℚ) (q : String) (qn : Int) (ans : String) : String :=
  match student.lookup qn with
  | none => "Q" ++ q ++ ": No answer (expected \x27" ++ ans ++ "\x27)"
  | some sa =>
      if sa == "" then "Q" ++ q ++ ": No answer (expected \x27" ++ ans ++ "\x27)"
      else
        let ansN := pyNormalize ans
        if ansN == "" then "Q" ++ q ++ ": No key"
        else
          let r := levSim (pyNormalize sa) ansN
          if thr ≤ r then "Q" ++ q ++ ": ✔ (" ++ sa ++ " ≈ " ++ ans ++ ")"
          else "Q" ++ q ++ ": ✘ (" ++ sa ++ ") expected (" ++ ans ++ "), similarity " ++ fmt2 r

/-- Shared loop skeleton of `grade_mcq`, `grade_match` and `grade_fill`: the
three sources iterate the answer key in order with identical control flow
(`total += 1`, `int(q)`, one verdict appended, `correct` conditionally
incremented); they differ only in the per-question test `P` and verdict `D`,
given above.  A `ValueError` from `int(q)` aborts the whole call, discarding
the accumulators, which `Except.error` models. -/
def gradeGo (P : Int → String → Bool) (D : String → Int → String → String) :
    KeyMap → Nat → Nat → List String → Except String GradeRes
  | [], c, t, ds => .ok (c, t, ds)
  | (q, ans) :: rest, c, t, ds =>
      match pyInt? q with
      | none => .error ("invalid literal for int(): " ++ q)
      | some qn =>
          gradeGo P D rest (if P qn ans then c + 1 else c) (t + 1) (ds ++ [D q qn ans])

/-- `grade_mcq(student_answers, answer_key)` (app.py lines 127-141). -/
def gradeMcq (student : AMap) (key : KeyMap) : Except String GradeRes :=
  gradeGo (mcqCorrectB student) (mcqDetail student) key 0 0 []

/-- `grade_tf(student_answers, answer_key)` (app.py lines 143-144). -/
def gradeTf (student : AMap) (key : KeyMap) : Except String GradeRes :=
  gradeMcq student key

/-- `grade_fill(student_answers, answer_key, lev_threshold=0.75)`
(app.py lines 146-168). -/
def gradeFill (student : AMap) (key : KeyMap) (thr : ℚ) : Except String GradeRes :=
  gradeGo (fillCorrectB student thr) (fillDetail student thr) key 0 0 []

/-- `grade_match(student_answers, answer_key)` (app.py lines 170-181). -/
def gradeMatch (student : AMap) (key : KeyMap) : Except String GradeRes :=
  gradeGo (matchCorrectB student) (matchDetail student) key 0 0 []

/-- `grade_vocab(student_answers, answer_key)` (app.py lines 226-227):
`grade_fill` at its default threshold. -/
def gradeVocab (student : AMap) (key : KeyMap) : Except String GradeRes :=
  gradeFill student key 0.75

/-- `grade_listening(uploaded_audio_answer, answer_key)` (app.py lines
229-233): `grade_fill` at its default threshold. -/
def gradeListening (student : AMap) (key : KeyMap) : Except String GradeRes :=
  gradeFill student key 0.75

/-- Per-entry correctness over a raw key entry, including the `int(q)` parse. -/
def entryP (P : Int → String → Bool) (e : String × String) : Bool :=
  match pyInt? e.1 with
  | some qn => P qn e.2
  | none => false

/-- Per-entry verdict over a raw key entry, including the `int(q)` parse
(the `none` branch is unreachable on a well-formed key). -/
def entryD (D : String → Int → String → String) (e : String × String) : String :=
  match pyInt? e.1 with
  | some qn => D e.1 qn e.2
  | none => ""

/-! ## Writing scorer (`analyze_writing_text`, app.py lines 183-224) -/

/-- The writing rubric record: `length.min`, `keywords`, `max_score`, with
absent fields defaulted in the scorer exactly as `rubric.get` does. -/
structure Rubric where
  lengthMin : Option Nat
  keywords : List String
  maxScore : Option Int

/-- Maximal runs of characters satisfying `p` (used for `str.split()` and for
the `[A-Za-z']+` token scan). -/
def runsByGo (p : Char → Bool) : List Char → List Char → List (List Char)
  | cur, [] => if cur.isEmpty then [] else [cur.reverse]
  | cur, c :: rest =>
      if p c then runsByGo p (c :: cur) rest
      else if cur.isEmpty then runsByGo p [] rest
      else cur.reverse :: runsByGo p [] rest

/-- Maximal runs of characters satisfying `p`. -/
def runsBy (p : Char → Bool) (cs : List Char) : List (List Char) :=
  runsByGo p [] cs

/-- `s.split()`: maximal runs of non-whitespace. -/
def pySplit (s : String) : List String :=
  (runsBy (fun c => !pyIsSpace c) s.data).map String.mk

/-- `re.findall(r"[A-Za-z']+", s)`: maximal runs of letters and apostrophes. -/
def wordTokens (s : String) : List (List Char) :=
  runsBy (fun c => c.isAlpha || c == Char.ofNat 39) s.data

/-- Count of tokens flagged by the spelling heuristic: longer than one
character and not purely alphabetic (`len(t)>1 and not t.isalpha()`). -/
def missCount (s : String) : Nat :=
  (wordTokens s).countP (fun t => decide (1 < t.length) && !t.all Char.isAlpha)

/-- Substring test `needle in hay` on character lists. -/
def leadsList : List Char → List Char → Bool
  | [], _ => true
  | _ :: _, [] => false
  | a :: as, b :: bs => a == b && leadsList as bs

/-- Substring containment `needle in hay` (Python `in` on strings). -/
def listContains (needle : List Char) : List Char → Bool
  | [] => needle.isEmpty
  | c :: t => leadsList needle (c :: t) || listContains needle t

/-- `needle in hay` on strings. -/
def strContains (hay needle : String) : Bool :=
  listContains needle.data hay.data

/-- `not s or not s[0].isupper()`. -/
def headNotUpper (s : String) : Bool :=
  match s.data with
  | [] => true
  | c :: _ => !c.isUpper

/-- `s and s[-1] not in ".!?"`. -/
def needsPunct (s : String) : Bool :=
  match s.data.getLast? with
  | none => false
  | some c => !(c == '.' || c == '!' || c == '?')

/-- `analyze_writing_text(student_text, rubric)`: start from the rubric
maximum and subtract the five penalties in source order, collecting feedback;
the final score is clamped at 0 by `max(0, score)`. -/
def analyzeWritingText (studentText : String) (rubric : Rubric) : Int × Int × List String :=
  let maxScore : Int := rubric.maxScore.getD 10
  let s := pyStrip studentText
  let st1 : Int × List String :=
    if (pySplit s).length < rubric.lengthMin.getD 5 then (maxScore - 2, ["Too short."])
    else (maxScore, [])
  let st2 : Int × List String :=
    rubric.keywords.foldl
      (fun p kw =>
        if strContains (pyLower s) (pyLower kw) then p
        else (p.1 - 1, p.2 ++ ["Missing keyword: " ++ kw]))
      st1
  let miss := missCount s
  let st3 : Int × List String :=
    if 0 < miss then
      (st2.1 - ((min 2 miss : Nat) : Int),
       st2.2 ++ ["Possible errors detected: " ++ toString miss ++ " tokens."])
    else st2
  let st4 : Int × List String :=
    if headNotUpper s then (st3.1 - 1, st3.2 ++ ["Start with a capital letter."]) else st3
  let st5 : Int × List String :=
    if needsPunct s then (st4.1 - 1, st4.2 ++ ["Missing ending punctuation."]) else st4
  (max 0 st5.1, maxScore, st5.2)

/-! ## Map lemmas for the parsers -/

theorem lookup_filter_ne (m : AMap) (q qp : Int) (h : qp ≠ q) :
    List.lookup qp (m.filter (fun p => p.1 != q)) = List.lookup qp m := by
  induction m with
  | nil => rfl
  | cons p t ih =>
    obtain ⟨k, v⟩ := p
    by_cases hkq : k = q
    · have h1 : ((k, v).1 != q) = false := by simp [hkq]
      have h2 : (qp == k) = false := by simp [hkq, h]
      simp [List.filter_cons, h1, List.lookup_cons, h2, ih]
    · have h1 : ((k, v).1 != q) = true := by simp [hkq]
      by_cases hq : qp = k
      · simp [List.filter_cons, h1, List.lookup_cons, hq]
      · have h2 : (qp == k) = false := by simp [hq]
        simp [List.filter_cons, h1, List.lookup_cons, h2, ih]

theorem lookup_dinsert_self (m : AMap) (q : Int) (v : String) :
    List.lookup q (dinsert m q v) = some v := by
  simp [dinsert, List.lookup_cons]

theorem lookup_dinsert_ne (m : AMap) (q qp : Int) (v : String) (h : qp ≠ q) :
    List.lookup qp (dinsert m q v) = List.lookup qp m := by
  have h2 : (qp == q) = false := by simp [h]
  simp [dinsert, List.lookup_cons, h2, lookup_filter_ne m q qp h]

theorem findQ_append (l1 l2 : List (Int × Char)) (f : Int × Char → Bool) :
    (l1 ++ l2).find? f =
      match l1.find? f with
      | some a => some a
      | none => l2.find? f := by
  induction l1 with
  | nil => simp
  | cons a t ih =>
    cases hf : f a <;> simp [List.find?_cons, hf, ih]

theorem lastHit_nil (q : Int) : lastHit [] q = none := rfl

theorem lastHit_cons (p : Int × Char) (t : List (Int × Char)) (q : Int) :
    lastHit (p :: t) q =
      match lastHit t q with
      | some r => some r
      | none => if p.1 == q then some p else none := by
  unfold lastHit
  rw [List.reverse_cons, findQ_append]
  cases ht : t.reverse.find? (fun r => r.1 == q) <;>
    cases hp : (p.1 == q) <;> simp [List.find?_cons, hp]

/-- Applying a list of matches in sequence with `answers[q] = a.upper()`:
the last match for a question wins, other questions are untouched. -/
theorem lookup_foldl_dinsert (l : List (Int × Char)) (m : AMap) (q : Int) :
    List.lookup q (l.foldl (fun acc p => dinsert acc p.1 (pyUpper1 p.2)) m) =
      match lastHit l q with
      | some p => some (pyUpper1 p.2)
      | none => List.lookup q m := by
  induction l generalizing m with
  | nil => simp [lastHit_nil]
  | cons p t ih =>
    rw [List.foldl_cons, ih, lastHit_cons]
    cases ht : lastHit t q with
    | some r => simp
    | none =>
      by_cases hq : p.1 = q
      · subst hq
        simp [lookup_dinsert_self]
      · have h2 : (p.1 == q) = false := by simp [hq]
        simp [h2, lookup_dinsert_ne _ _ _ _ (fun h => hq h.symm)]

/-- Same statement for the guarded insertion of the bare matching fallback. -/
theorem lookup_foldl_insertWhen (g : Int × Char → Bool) (l : List (Int × Char))
    (m : AMap) (q : Int) :
    List.lookup q
        (l.foldl (fun acc p => if g p then dinsert acc p.1 (pyUpper1 p.2) else acc) m) =
      match lastHit (l.filter g) q with
      | some p => some (pyUpper1 p.2)
      | none => List.lookup q m := by
  induction l generalizing m with
  | nil => simp [lastHit_nil]
  | cons p t ih =>
    rw [List.foldl_cons]
    by_cases hg : g p = true
    · rw [if_pos hg, ih, List.filter_cons, if_pos hg, lastHit_cons]
      cases ht : lastHit (t.filter g) q with
      | some r => simp
      | none =>
        by_cases hq : p.1 = q
        · subst hq
          simp [lookup_dinsert_self]
        · have h2 : (p.1 == q) = false := by simp [hq]
          simp [h2, lookup_dinsert_ne _ _ _ _ (fun h => hq h.symm)]
    · rw [if_neg hg, ih, List.filter_cons, if_neg hg]

theorem find_filter_keep (l : List (Int × Char)) (f g : Int × Char → Bool)
    (a : Int × Char) (h : l.find? f = some a) (hg : g a = true) :
    (l.filter g).find? f = some a := by
  induction l with
  | nil => simp at h
  | cons p t ih =>
    rw [List.find?_cons] at h
    cases hf : f p with
    | true =>
      rw [hf] at h
      simp only [Option.some.injEq] at h
      subst h
      rw [List.filter_cons, if_pos hg, List.find?_cons, hf]
    | false =>
      rw [hf] at h
      rw [List.filter_cons]
      by_cases hgp : g p = true
      · rw [if_pos hgp, List.find?_cons, hf]
        exact ih h
      · rw [if_neg hgp]
        exact ih h

theorem filter_reverse_comm (l : List (Int × Char)) (g : Int × Char → Bool) :
    (l.filter g).reverse = l.reverse.filter g := by
  induction l with
  | nil => rfl
  | cons p t ih =>
    rw [List.reverse_cons, List.filter_append, List.filter_cons]
    by_cases hg : g p = true
    · rw [if_pos hg, List.reverse_cons, ih]
      simp [List.filter_cons, hg]
    · rw [if_neg hg, ih]
      simp [List.filter_cons, hg]

theorem lastHit_filter (l : List (Int × Char)) (g : Int × Char → Bool)
    (q : Int) (p : Int × Char) (h : lastHit l q = some p) (hg : g p = true) :
    lastHit (l.filter g) q = some p := by
  unfold lastHit at h ⊢
  rw [filter_reverse_comm]
  exact find_filter_keep _ _ _ _ h hg

/-! ## Characterization of the grading loop -/

/-- On a well-formed key the grading loop never raises: it returns the
accumulated correct count plus one per entry passing the per-question test,
the accumulated total plus the key size, and one verdict per key entry in
key order. -/
theorem gradeGo_eq (P : Int → String → Bool) (D : String → Int → String → String)
    (key : KeyMap) (h : wfKey key) (c t : Nat) (ds : List String) :
    gradeGo P D key c t ds =
      Except.ok (c + key.countP (entryP P), t + key.length, ds ++ key.map (entryD D)) := by
  induction key generalizing c t ds with
  | nil => simp [gradeGo]
  | cons e rest ih =>
    obtain ⟨q, ans⟩ := e
    have hq : (pyInt? q).isSome = true := h (q, ans) (List.mem_cons_self _ _)
    obtain ⟨qn, hqn⟩ := Option.isSome_iff_exists.mp hq
    have hrest : wfKey rest := fun p hp => h p (List.mem_cons_of_mem _ hp)
    simp only [gradeGo, hqn]
    rw [ih hrest]
    have hP : entryP P (q, ans) = P qn ans := by simp [entryP, hqn]
    have hD : entryD D (q, ans) = D q qn ans := by simp [entryD, hqn]
    rw [List.countP_cons, List.map_cons, hP, hD]
    by_cases hb : P qn ans = true
    · simp [hb]
      omega
    · simp [hb]
      omega

/-- A student mapping holding exactly the key entries, question numbers
parsed (the well-typed reading of "a student mapping identical to the key"). -/
def keyAsStudent (key : KeyMap) : AMap :=
  key.filterMap (fun e =>
    match pyInt? e.1 with
    | some qn => some (qn, e.2)
    | none => none)

/-- The parsed question numbers of a key, in key order. -/
def parsedNums (key : KeyMap) : List Int :=
  key.filterMap (fun e => pyInt? e.1)

theorem lookup_keyAsStudent (key : KeyMap) (h : wfKey key)
    (hnd : (parsedNums key).Nodup) (e : String × String) (qn : Int)
    (he : e ∈ key) (hq : pyInt? e.1 = some qn) :
    List.lookup qn (keyAsStudent key) = some e.2 := by
  induction key with
  | nil => simp at he
  | cons f rest ih =>
    have hf : (pyInt? f.1).isSome = true := h f (List.mem_cons_self _ _)
    obtain ⟨qf, hqf⟩ := Option.isSome_iff_exists.mp hf
    have hks : keyAsStudent (f :: rest) = (qf, f.2) :: keyAsStudent rest := by
      simp [keyAsStudent, List.filterMap_cons, hqf]
    have hpn : parsedNums (f :: rest) = qf :: parsedNums rest := by
      simp [parsedNums, List.filterMap_cons, hqf]
    rw [hpn] at hnd
    have hnotin : qf ∉ parsedNums rest := (List.nodup_cons.mp hnd).1
    have hndr : (parsedNums rest).Nodup := (List.nodup_cons.mp hnd).2
    rw [hks]
    rcases List.mem_cons.mp he with hef | her
    · subst hef
      rw [hq] at hqf
      have : qn = qf := by injection hqf
      subst this
      simp [List.lookup_cons]
    · have hmem : qn ∈ parsedNums rest :=
        List.mem_filterMap.mpr ⟨e, her, hq⟩
      have hne : (qn == qf) = false := by
        simp only [beq_eq_false_iff_ne, ne_eq]
        intro hcontra
        exact hnotin (hcontra ▸ hmem)
      rw [List.lookup_cons, hne]
      exact ih (fun p hp => h p (List.mem_cons_of_mem _ hp)) hndr her

/-! ## Claim C1 (MCQ parser, packed lines) -/

/-- C1 counterexample: on the spec's own example line `"1-A 2-B"` the first
anchored pattern matches and `continue` skips the findall, so question 2
gets no entry, contradicting the claim that every occurrence in the line is
applied. -/
theorem mcq_packed_line_drops_second :
    (parseMcqFromLines ["1-A 2-B"]).lookup 2 = none ∧
    (parseMcqFromLines ["1-A 2-B"]).lookup 1 = some "A" := by
  constructor <;> rfl

/-- C1 (amended): per line, the anchored shapes short-circuit — when shape
(a) matches, or shape (a) fails and shape (b) matches, only that single
match is applied and no other occurrence of `<num><sep><letter>` in the
line contributes; only on lines where neither anchored shape matches are
all findall occurrences applied in sequence, and then the last applied
value for a given question number wins. -/
theorem mcq_findall_last_wins (ans : AMap) (line : String) :
    (∀ (q : Int) (a : Char), matchA line.data = some (q, a) →
      processMcqLine ans line = dinsert ans q (pyUpper1 a)) ∧
    (∀ (q : Int) (a : Char), matchA line.data = none → matchB line.data = some (q, a) →
      processMcqLine ans line = dinsert ans q (pyUpper1 a)) ∧
    (matchA line.data = none → matchB line.data = none → ∀ q : Int,
      (processMcqLine ans line).lookup q =
        match lastHit (findallC line.data) q with
        | some p => some (pyUpper1 p.2)
        | none => ans.lookup q) := by
  refine ⟨?_, ?_, ?_⟩
  · intro q a hA
    simp only [processMcqLine, hA]
  · intro q a hA hB
    simp only [processMcqLine, hA, hB]
  · intro hA hB q
    simp only [processMcqLine, hA, hB]
    exact lookup_foldl_dinsert _ _ _

/-- C1 witness, exercising both hypothesis-bearing cases: on the
tab-separated line `"1\tA 2-B"` shape (a) fails, shape (b) matches `(1,A)`
and only that single match is applied (question 2 gets no entry); on
`"x 1-A 2-B 1-C"` both anchored shapes fail, the findall matches
`(1,A) (2,B) (1,C)` are all applied and the last one for question 1 wins. -/
theorem mcq_findall_last_wins_check :
    (matchA "1\tA 2-B".data = none ∧ matchB "1\tA 2-B".data = some (1, 'A') ∧
      processMcqLine [] "1\tA 2-B" = dinsert [] 1 (pyUpper1 'A')) ∧
    (matchA "x 1-A 2-B 1-C".data = none ∧ matchB "x 1-A 2-B 1-C".data = none ∧
      (processMcqLine [] "x 1-A 2-B 1-C").lookup 1 = some "C") :=
  ⟨⟨by decide, by decide,
      (mcq_findall_last_wins [] "1\tA 2-B").2.1 1 'A' (by decide) (by decide)⟩,
   ⟨by decide, by decide,
      ((mcq_findall_last_wins [] "x 1-A 2-B 1-C").2.2 (by decide) (by decide) 1).trans
        (by decide)⟩⟩

/-! ## Claim C5 (Matching parser, bare fallback) -/

/-- C5 counterexample: on the line `"1: B 1 A"` the strict shape matches
question 1 with `B`, yet the bare `<num><space><letter>` scan runs afterwards
and overwrites it with `A` — the bare shape is not a mere fallback. -/
theorem match_strict_overwritten_counterexample :
    findallStrict "1: B 1 A".data = [(1, 'B')] ∧
    (parseMatchFromLines ["1: B 1 A"]).lookup 1 = some "A" := by
  constructor <;> rfl

/-- C5 (amended): the bare `<num><space><single-letter>` matches of a line
are applied unconditionally after the stricter matches, so the last bare
match for a question number determines its value even when a stricter shape
also matched that number. -/
theorem match_bare_overwrites_strict (ans : AMap) (line : String) (q : Int) (c : Char)
    (h : lastHit (findallBare line.data) q = some (q, c)) (hc : c.isAlpha = true) :
    (processMatchLine ans line).lookup q = some (pyUpper1 c) := by
  unfold processMatchLine
  rw [lookup_foldl_insertWhen (fun p => p.2.isAlpha)]
  have h2 : lastHit ((findallBare line.data).filter (fun p => p.2.isAlpha)) q = some (q, c) :=
    lastHit_filter _ _ _ _ h hc
  simp only [h2]

/-- C5 witness: on `"1: B 1 A"` the last bare match for question 1 is
`(1, A)`, and it is the surviving value despite the strict match `(1, B)`. -/
theorem match_bare_overwrites_strict_check :
    lastHit (findallBare "1: B 1 A".data) 1 = some (1, 'A') ∧
    Char.isAlpha 'A' = true ∧
    (processMatchLine [] "1: B 1 A").lookup 1 = some (pyUpper1 'A') :=
  ⟨by decide, by decide,
    match_bare_overwrites_strict [] "1: B 1 A" 1 'A' (by decide) (by decide)⟩

/-! ## Claim C8 (writing scorer, concrete rubric example) -/

/-- C8: with rubric `{length.min 5, keywords ["because"], max_score 10}` and
text `"I go home."` the scorer returns 7 out of 10, and the feedback contains
both the too-short item and the missing-keyword item naming "because". -/
theorem writing_example_scores_seven :
    analyzeWritingText "I go home." (Rubric.mk (some 5) ["because"] (some 10)) =
      (7, 10, ["Too short.", "Missing keyword: because"]) ∧
    "Too short." ∈
      (analyzeWritingText "I go home." (Rubric.mk (some 5) ["because"] (some 10))).2.2 ∧
    "Missing keyword: because" ∈
      (analyzeWritingText "I go home." (Rubric.mk (some 5) ["because"] (some 10))).2.2 := by
  refine ⟨by decide, by decide, by decide⟩

/-! ## Claim C9 (writing scorer, capped penalty and floor) -/

/-- C9: the mechanical-error penalty `min(2, miss)` never exceeds 2 whatever
the number of flagged tokens, and the returned writing score is never below
0 thanks to the final `max(0, score)`. -/
theorem writing_penalty_capped_and_floored :
    (∀ s : String, min 2 (missCount s) ≤ 2) ∧
    (∀ (text : String) (rubric : Rubric), 0 ≤ (analyzeWritingText text rubric).1) := by
  constructor
  · intro s
    exact Nat.min_le_left 2 _
  · intro text rubric
    exact le_max_left 0 _

/-! ## Claim C10 (alias graders) -/

/-- C10: `grade_tf` is exactly `grade_mcq`, and `grade_vocab` and
`grade_listening` are exactly `grade_fill` at its default threshold 0.75, on
every student mapping and answer key. -/
theorem alias_graders_identical :
    (∀ (s : AMap) (k : KeyMap), gradeTf s k = gradeMcq s k) ∧
    (∀ (s : AMap) (k : KeyMap), gradeVocab s k = gradeFill s k 0.75) ∧
    (∀ (s : AMap) (k : KeyMap), gradeListening s k = gradeFill s k 0.75) :=
  ⟨fun _ _ => rfl, fun _ _ => rfl, fun _ _ => rfl⟩

/-! ## Claim C2 (exact-match counting rule) -/

/-- C2 counterexample: key value `a` and student value `A` are equal after
case-insensitive normalization, yet `grade_match` counts the question wrong
(it compares with `==`, case sensitively), while `grade_mcq` counts it
correct. -/
theorem match_grader_case_sensitive :
    pyUpper "A" = pyUpper "a" ∧
    gradeMatch [(1, "A")] [("1", "a")] = Except.ok (0, 1, ["1-A: ✘ expected a"]) ∧
    gradeMcq [(1, "A")] [("1", "a")] = Except.ok (1, 1, ["Q1: ✔ A"]) := by
  refine ⟨rfl, rfl, rfl⟩

/-- C2 (amended): on a well-formed key, the MCQ and True/False graders count
a question correct exactly when the student value equals the key value after
case-insensitive normalization (`mcqCorrectB`: `sa.upper() == ans.upper()`),
while the Matching grader counts it correct exactly when the values are
equal case-sensitively (`matchCorrectB`: `sa == right`). -/
theorem exact_graders_counting_rule (student : AMap) (key : KeyMap) (h : wfKey key) :
    (∃ ds, gradeMcq student key =
        Except.ok (key.countP (entryP (mcqCorrectB student)), key.length, ds)) ∧
    (∃ ds, gradeMatch student key =
        Except.ok (key.countP (entryP (matchCorrectB student)), key.length, ds)) := by
  refine ⟨⟨key.map (entryD (mcqDetail student)), ?_⟩,
          ⟨key.map (entryD (matchDetail student)), ?_⟩⟩
  · unfold gradeMcq
    rw [gradeGo_eq _ _ key h]
    simp
  · unfold gradeMatch
    rw [gradeGo_eq _ _ key h]
    simp

/-- C2 witness: the counting rule applied to the concrete case of the
counterexample. -/
theorem exact_graders_counting_rule_check :
    wfKey [("1", "a")] ∧
    ((∃ ds, gradeMcq [(1, "A")] [("1", "a")] =
        Except.ok ([("1", "a")].countP (entryP (mcqCorrectB [(1, "A")])),
          [("1", "a")].length, ds)) ∧
     (∃ ds, gradeMatch [(1, "A")] [("1", "a")] =
        Except.ok ([("1", "a")].countP (entryP (matchCorrectB [(1, "A")])),
          [("1", "a")].length, ds))) :=
  ⟨by decide, exact_graders_counting_rule [(1, "A")] [("1", "a")] (by decide)⟩

/-! ## Claim C3 (fill grader, empty key text) -/

/-- C3 counterexample: a key whose text normalizes to empty is reported
"No key" and never counted correct, but `total += 1` has already run, so the
returned total is 1, not 0 — the question is **not** excluded from the
total. -/
theorem fill_no_key_counted_in_total :
    gradeFill [(1, "x")] [("1", "!!!")] 0.75 = Except.ok (0, 1, ["Q1: No key"]) := by
  rfl

/-- C3 (amended): the approximate-text grader counts every key question in
the returned total (total = key size); a question whose key text is empty
after normalization is never counted correct, and — when the student answer
is present and nonempty — its verdict is the distinct "No key" string (a
missing or empty student answer is reported "No answer" first instead). -/
theorem fill_no_key_behaviour (student : AMap) (key : KeyMap) (thr : ℚ) (h : wfKey key) :
    gradeFill student key thr =
      Except.ok (key.countP (entryP (fillCorrectB student thr)), key.length,
        key.map (entryD (fillDetail student thr))) ∧
    (∀ e ∈ key, pyNormalize e.2 = "" → entryP (fillCorrectB student thr) e = false) ∧
    (∀ (q ans sa : String) (qn : Int), pyInt? q = some qn →
      List.lookup qn student = some sa → sa ≠ "" → pyNormalize ans = "" →
      fillDetail student thr q qn ans = "Q" ++ q ++ ": No key") := by
  refine ⟨?_, ?_, ?_⟩
  · unfold gradeFill
    rw [gradeGo_eq _ _ key h]
    simp
  · intro e he hne
    obtain ⟨qn, hq⟩ := Option.isSome_iff_exists.mp (h e he)
    simp only [entryP, fillCorrectB, hq]
    cases hl : List.lookup qn student with
    | none => rfl
    | some sa =>
      by_cases hsa : sa = ""
      · simp [hsa]
      · simp [hsa, hne]
  · intro q ans sa qn hq hl hsa hnorm
    have hsab : (sa == "") = false := by simp [hsa]
    simp [fillDetail, hl, hsab, hnorm]

/-- C3 witness: the amended behaviour at the counterexample input. -/
theorem fill_no_key_behaviour_check :
    wfKey [("1", "!!!")] ∧
    gradeFill [(1, "x")] [("1", "!!!")] 0.75 =
      Except.ok ([("1", "!!!")].countP (entryP (fillCorrectB [(1, "x")] 0.75)),
        [("1", "!!!")].length,
        [("1", "!!!")].map (entryD (fillDetail [(1, "x")] 0.75))) :=
  ⟨by decide, (fill_no_key_behaviour [(1, "x")] [("1", "!!!")] 0.75 (by decide)).1⟩

/-! ## Claim C4 (empty student mapping) -/

/-- C4 counterexample: in `grade_match` the verdict for a *missing* answer
is the same ✘-shaped string as for the literal wrong answer `"None"` — the
missing case is not rendered as a distinct "no answer" verdict. -/
theorem match_missing_conflated_with_none :
    gradeMatch [] [("1", "C")] = Except.ok (0, 1, ["1-None: ✘ expected C"]) ∧
    gradeMatch [(1, "None")] [("1", "C")] = Except.ok (0, 1, ["1-None: ✘ expected C"]) := by
  refine ⟨rfl, rfl⟩

/-- C4 (amended): on a well-formed key, grading the empty student mapping
gives correct = 0 in both exact-match graders; `grade_mcq` (and so
`grade_tf`) marks every question with the distinct "No answer" verdict,
while `grade_match` emits the incorrect-shaped verdict with the placeholder
`None`, which coincides with the verdict for a wrong answer equal to the
literal string "None". -/
theorem empty_student_grading (key : KeyMap) (h : wfKey key) :
    gradeMcq [] key =
      Except.ok (0, key.length,
        key.map (fun e => "Q" ++ e.1 ++ ": No answer (expected " ++ e.2 ++ ")")) ∧
    gradeMatch [] key =
      Except.ok (0, key.length,
        key.map (fun e => e.1 ++ "-None: ✘ expected " ++ e.2)) := by
  constructor
  · unfold gradeMcq
    rw [gradeGo_eq _ _ key h]
    have h1 : key.countP (entryP (mcqCorrectB [])) = 0 := by
      rw [List.countP_eq_zero]
      intro e _
      simp only [entryP, mcqCorrectB]
      cases pyInt? e.1 <;> simp [List.lookup]
    have h2 : key.map (entryD (mcqDetail [])) =
        key.map (fun e => "Q" ++ e.1 ++ ": No answer (expected " ++ e.2 ++ ")") := by
      apply List.map_congr_left
      intro e he
      obtain ⟨qn, hqn⟩ := Option.isSome_iff_exists.mp (h e he)
      simp [entryD, hqn, mcqDetail, List.lookup]
    rw [h1, h2]
    simp
  · unfold gradeMatch
    rw [gradeGo_eq _ _ key h]
    have h1 : key.countP (entryP (matchCorrectB [])) = 0 := by
      rw [List.countP_eq_zero]
      intro e _
      simp only [entryP, matchCorrectB]
      cases pyInt? e.1 <;> simp [List.lookup]
    have h2 : key.map (entryD (matchDetail [])) =
        key.map (fun e => e.1 ++ "-None: ✘ expected " ++ e.2) := by
      apply List.map_congr_left
      intro e he
      obtain ⟨qn, hqn⟩ := Option.isSome_iff_exists.mp (h e he)
      simp [entryD, hqn, matchDetail, List.lookup]
    rw [h1, h2]
    simp

/-- C4 witness: the amended behaviour at a concrete two-question key. -/
theorem empty_student_grading_check :
    wfKey [("1", "C"), ("2", "d")] ∧
    (gradeMcq [] [("1", "C"), ("2", "d")] =
      Except.ok (0, 2,
        ["Q1: No answer (expected C)", "Q2: No answer (expected d)"]) ∧
     gradeMatch [] [("1", "C"), ("2", "d")] =
      Except.ok (0, 2,
        ["1-None: ✘ expected C", "2-None: ✘ expected d"])) :=
  ⟨by decide, empty_student_grading [("1", "C"), ("2", "d")] (by decide)⟩

/-! ## Claim C6 (identical student mapping scores full marks) -/

/-- C6: on a well-formed key with pairwise distinct parsed question numbers,
a student mapping holding exactly the key's entries scores correct = total
in both exact-match graders. -/
theorem identical_student_full_marks (key : KeyMap) (h : wfKey key)
    (hnd : (parsedNums key).Nodup) :
    (∃ ds, gradeMcq (keyAsStudent key) key = Except.ok (key.length, key.length, ds)) ∧
    (∃ ds, gradeMatch (keyAsStudent key) key = Except.ok (key.length, key.length, ds)) := by
  have hmcq : ∀ e ∈ key, entryP (mcqCorrectB (keyAsStudent key)) e = true := by
    intro e he
    obtain ⟨qn, hqn⟩ := Option.isSome_iff_exists.mp (h e he)
    have hl := lookup_keyAsStudent key h hnd e qn he hqn
    simp [entryP, hqn, mcqCorrectB, hl]
  have hmatch : ∀ e ∈ key, entryP (matchCorrectB (keyAsStudent key)) e = true := by
    intro e he
    obtain ⟨qn, hqn⟩ := Option.isSome_iff_exists.mp (h e he)
    have hl := lookup_keyAsStudent key h hnd e qn he hqn
    simp [entryP, hqn, matchCorrectB, hl]
  refine ⟨⟨key.map (entryD (mcqDetail (keyAsStudent key))), ?_⟩,
          ⟨key.map (entryD (matchDetail (keyAsStudent key))), ?_⟩⟩
  · unfold gradeMcq
    rw [gradeGo_eq _ _ key h, List.countP_eq_length.mpr hmcq]
    simp
  · unfold gradeMatch
    rw [gradeGo_eq _ _ key h, List.countP_eq_length.mpr hmatch]
    simp

/-- C6 witness: full marks on a concrete key graded against itself. -/
theorem identical_student_full_marks_check :
    wfKey [("1", "A"), ("2", "b")] ∧ (parsedNums [("1", "A"), ("2", "b")]).Nodup ∧
    ((∃ ds, gradeMcq (keyAsStudent [("1", "A"), ("2", "b")]) [("1", "A"), ("2", "b")] =
        Except.ok (2, 2, ds)) ∧
     (∃ ds, gradeMatch (keyAsStudent [("1", "A"), ("2", "b")]) [("1", "A"), ("2", "b")] =
        Except.ok (2, 2, ds))) :=
  ⟨by decide, by decide,
    identical_student_full_marks [("1", "A"), ("2", "b")] (by decide) (by decide)⟩

/-! ## Claim C7 (graders are total on well-formed keys) -/

/-- C7: on any well-formed answer key and any student mapping (including the
empty one) the exact-match, matching and approximate-text graders return an
`ok` result — the error branch (Python `ValueError` from `int(q)`) is never
taken; the writing scorer is total by construction (it returns a plain
triple). -/
theorem graders_total_on_wellformed_key (student : AMap) (key : KeyMap) (thr : ℚ)
    (h : wfKey key) :
    (gradeMcq student key).isOk = true ∧ (gradeMatch student key).isOk = true ∧
    (gradeFill student key thr).isOk = true := by
  refine ⟨?_, ?_, ?_⟩
  · unfold gradeMcq
    rw [gradeGo_eq _ _ key h]
    rfl
  · unfold gradeMatch
    rw [gradeGo_eq _ _ key h]
    rfl
  · unfold gradeFill
    rw [gradeGo_eq _ _ key h]
    rfl

/-- C7 witness: totality at a concrete key, empty student mapping. -/
theorem graders_total_on_wellformed_key_check :
    wfKey [("1", "A"), ("2", "apple")] ∧
    ((gradeMcq [] [("1", "A"), ("2", "apple")]).isOk = true ∧
     (gradeMatch [] [("1", "A"), ("2", "apple")]).isOk = true ∧
     (gradeFill [] [("1", "A"), ("2", "apple")] 0.75).isOk = true) :=
  ⟨by decide, graders_total_on_wellformed_key [] [("1", "A"), ("2", "apple")] 0.75 (by decide)⟩
